import Mathlib

/-!
Podman machine helpers: gvproxy termination, ssh command line, disk dispatch.

A shallow embedding of three source files of `pkg/machine`:

* `gvproxy_unix.go`: `backoffForProcess`, `waitOnProcess`
* `ssh.go`: `CommonSSH`, `CommonSSHSilent`, `commonSSH`
* `shim/diskpull/diskpull.go`: `GetDisk`

The platform calls (`psutil.NewProcess`, `p.IsRunning`, `p.Kill`, `time.Sleep`,
`exec.Command`, `cmd.Run`, the disk constructors) are effects.  Each function is
embedded as a pure function from the answers the platform gives to the pair
(returned error, ordered list of effects requested).  Logging calls
(`logrus.Infof`, `logrus.Debugf`) are not recorded.
-/

namespace Podman

/-! ## Go values -/

/-- Go `error` values: a `syscall.Errno`, an error with a fixed message
(`errors.New`, `fmt.Errorf` without `%w`), or `fmt.Errorf("<context>%w", inner)`. -/
inductive GoError where
  | errno (n : Nat)
  | text (msg : String)
  | wrapped (context : String) (inner : GoError)
  deriving DecidableEq, Repr

/-- The errno `syscall.ESRCH` (no such process). -/
def ESRCH : GoError := GoError.errno 3

/-- The method `Error()`: the message of an error; `errnoText` is the message table of
package `syscall`. -/
def GoError.Error (errnoText : Nat → String) : GoError → String
  | GoError.errno n => errnoText n
  | GoError.text msg => msg
  | GoError.wrapped context inner => context ++ GoError.Error errnoText inner

/-- The function `errors.Is(err, target)`: `target` is `err` or an error that `err` wraps. -/
def errorsIs : GoError → GoError → Bool
  | GoError.wrapped context inner, target =>
      decide (GoError.wrapped context inner = target) || errorsIs inner target
  | err, target => decide (err = target)

/-- Conversion `int32(x)` of a Go `int`: two's complement truncation to 32 bits. -/
def toInt32 (x : Int) : Int := (x + 2147483648) % 4294967296 - 2147483648

/-- Wrap-around of `int64` arithmetic (the type under `time.Duration`). -/
def wrapInt64 (x : Int) : Int :=
  (x + 9223372036854775808) % 18446744073709551616 - 9223372036854775808

/-- The verb `%d` of package `fmt` on an integer: decimal, with a leading minus sign. -/
def fmtD (x : Int) : String := toString x

/-! ## gvproxy_unix.go -/

/-- The struct `psutil.Process`, of which the code reads the field `Pid`. -/
structure Process where
  Pid : Int
  deriving DecidableEq, Repr

/-- Signals a `psutil.Process` method can send: `Terminate` sends `SIGTERM`, `Kill`
sends `SIGKILL`. -/
inductive Signal where
  | SIGTERM
  | SIGKILL
  deriving DecidableEq, Repr

/-- Effects requested from the platform, in program order. -/
inductive Event where
  | newProcess (pid : Int)
  | isRunning (pid : Int)
  | signal (pid : Int) (sig : Signal)
  | sleep (d : Int)
  deriving DecidableEq, Repr

/-- What a call returns (`none` is Go's `nil` error) and the effects it requested. -/
structure Outcome where
  err : Option GoError
  trace : List Event
  deriving DecidableEq, Repr

/-- The constant `loops`. -/
def loops : Nat := 8

/-- The constant `sleepTime = time.Millisecond * 1`, in nanoseconds. -/
def sleepTime : Int := 1000000

/-- The body of the `for` loop of `backoffForProcess` with `remaining = loops - i`
iterations to go; `isRunning j` is what the `j`-th call of `p.IsRunning()` returns. -/
def backoffLoop (p : Process) (isRunning : Nat → Except GoError Bool) :
    (remaining : Nat) → (i : Nat) → (sleepInterval : Int) → Outcome
  | 0, _, _ =>
      { err := some (GoError.text ("process " ++ fmtD p.Pid ++ " has not ended")),
        trace := [] }
  | remaining + 1, i, sleepInterval =>
      match isRunning i with
      | Except.error err =>
          { err := some (GoError.wrapped "checking if process running: " err),
            trace := [Event.isRunning p.Pid] }
      | Except.ok false =>
          { err := none, trace := [Event.isRunning p.Pid] }
      | Except.ok true =>
          let rest := backoffLoop p isRunning remaining (i + 1)
            (wrapInt64 (sleepInterval + sleepInterval))
          { err := rest.err,
            trace := Event.isRunning p.Pid :: Event.sleep sleepInterval :: rest.trace }

/-- The function `backoffForProcess`. -/
def backoffForProcess (p : Process) (isRunning : Nat → Except GoError Bool) : Outcome :=
  backoffLoop p isRunning loops 0 sleepTime

/-- What the platform answers during one call of `waitOnProcess`: the result of
`psutil.NewProcess`, of the successive calls of `p.IsRunning()` (numbered from 0), and of
`p.Kill()`. -/
structure Env where
  newProcess : Int → Except GoError Process
  isRunning : Nat → Except GoError Bool
  kill : Option GoError

/-- The function `waitOnProcess`. -/
def waitOnProcess (env : Env) (processID : Int) : Outcome :=
  match env.newProcess (toInt32 processID) with
  | Except.error err =>
      { err := some (GoError.wrapped ("looking up PID " ++ fmtD processID ++ ": ") err),
        trace := [Event.newProcess (toInt32 processID)] }
  | Except.ok p =>
      match env.isRunning 0 with
      | Except.error err =>
          { err := some (GoError.wrapped "checking if gvproxy is running: " err),
            trace := [Event.newProcess (toInt32 processID), Event.isRunning p.Pid] }
      | Except.ok false =>
          { err := none,
            trace := [Event.newProcess (toInt32 processID), Event.isRunning p.Pid] }
      | Except.ok true =>
          match env.kill with
          | some err =>
              if errorsIs err ESRCH then
                { err := none,
                  trace := [Event.newProcess (toInt32 processID), Event.isRunning p.Pid,
                    Event.signal p.Pid Signal.SIGKILL] }
              else
                { err := some err,
                  trace := [Event.newProcess (toInt32 processID), Event.isRunning p.Pid,
                    Event.signal p.Pid Signal.SIGKILL] }
          | none =>
              let r := backoffForProcess p (fun i => env.isRunning (i + 1))
              { err := r.err,
                trace := Event.newProcess (toInt32 processID) :: Event.isRunning p.Pid ::
                  Event.signal p.Pid Signal.SIGKILL :: r.trace }

/-! ## Observations on traces -/

/-- The durations of the sleeps of a trace, in order. -/
def sleepsOf : List Event → List Int
  | [] => []
  | Event.sleep d :: rest => d :: sleepsOf rest
  | _ :: rest => sleepsOf rest

/-- The number of liveness queries of a trace. -/
def queriesOf : List Event → Nat
  | [] => 0
  | Event.isRunning _ :: rest => queriesOf rest + 1
  | _ :: rest => queriesOf rest

/-- The signals of a trace, in order. -/
def signalsOf : List Event → List Signal
  | [] => []
  | Event.signal _ sig :: rest => sig :: signalsOf rest
  | _ :: rest => signalsOf rest

/-- The stream of answers that says running forever. -/
def alwaysRunning : Nat → Except GoError Bool := fun _ => Except.ok true

/-- The stream that answers running on the first `k` polls and `last` from then on. -/
def runningThen (k : Nat) (last : Except GoError Bool) : Nat → Except GoError Bool :=
  fun i => if i < k then Except.ok true else last

/-- A platform on which the process looked up exists, says running to every liveness
query, and takes the kill request without error. -/
def stubbornEnv : Env :=
  { newProcess := fun pid => Except.ok { Pid := pid },
    isRunning := alwaysRunning,
    kill := none }

/-- A platform on which the lookup succeeds and the first liveness query says not
running. -/
def goneEnv : Env :=
  { newProcess := fun pid => Except.ok { Pid := pid },
    isRunning := fun _ => Except.ok false,
    kill := none }

/-- A platform on which `psutil.NewProcess` fails with its `ErrorProcessNotRunning`
(`process does not exist`), as it does for a process ID that names no process. -/
def missingEnv : Env :=
  { newProcess := fun _ => Except.error (GoError.text "process does not exist"),
    isRunning := fun _ => Except.ok false,
    kill := none }

/-- A platform on which the process answers running and the kill request fails with
`err`. -/
def killFailsEnv (err : GoError) : Env :=
  { newProcess := fun pid => Except.ok { Pid := pid },
    isRunning := alwaysRunning,
    kill := some err }

/-- A platform on which the lookup succeeds and the first liveness query fails. -/
def queryFailsEnv : Env :=
  { newProcess := fun pid => Except.ok { Pid := pid },
    isRunning := fun _ => Except.error (GoError.text "permission denied"),
    kill := none }

/-- The doubling schedule `d, 2d, 4d, ...` of length `m`. -/
def schedule (d : Int) (m : Nat) : List Int :=
  (List.range m).map (fun j => d * 2 ^ j)

/-- The trace of `k` polls that all answer running: a query, then a sleep, `k` times, the
sleeps following the doubling schedule from `d`. -/
def pollSleeps (pid : Int) (d : Int) (k : Nat) : List Event :=
  (List.range k).flatMap (fun j => [Event.isRunning pid, Event.sleep (d * 2 ^ j)])

/-! ## ssh.go -/

/-- The function `strconv.Itoa`: the decimal text of an `int`. -/
def Itoa (x : Int) : String := toString x

/-- The command `exec.Command(name, args...)` builds. -/
structure Cmd where
  name : String
  args : List String
  deriving DecidableEq, Repr

/-- Effects `commonSSH` requests, in program order. -/
inductive SSHEvent where
  | printf (text : String)
  | setupIOPassthrough (cmd : Cmd) (interactive : Bool)
  | run (cmd : Cmd)
  deriving DecidableEq, Repr

/-- What the platform answers to `commonSSH`: the result of `setupIOPassthrough`, a
function of this package defined in another file, and of `cmd.Run()`. -/
structure SSHEnv where
  setupIOPassthrough : Cmd → Bool → Option GoError
  run : Cmd → Option GoError

/-- What `commonSSH` returns and the effects it requested. -/
structure SSHOutcome where
  err : Option GoError
  trace : List SSHEvent
  deriving DecidableEq, Repr

/-- The function `commonSSH`. -/
def commonSSH (env : SSHEnv) (username identityPath name : String) (sshPort : Int)
    (inputArgs : List String) (silent : Bool) : SSHOutcome :=
  let sshDestination := username ++ "@localhost"
  let port := Itoa sshPort
  let args := ["-i", identityPath, "-p", port, sshDestination,
    "-o", "IdentitiesOnly=yes",
    "-o", "StrictHostKeyChecking=no", "-o", "LogLevel=ERROR", "-o", "SetEnv=LC_ALL="]
  let interactive := !decide (inputArgs.length > 0)
  let args := if inputArgs.length > 0 then args ++ inputArgs else args ++ ["-t"]
  let printed := if inputArgs.length > 0 then []
    else [SSHEvent.printf ("Connecting to vm " ++ name
      ++ ". To close connection, use \x60~.\x60 or \x60exit\x60\n")]
  let cmd : Cmd := { name := "ssh", args := args }
  if !silent then
    match env.setupIOPassthrough cmd interactive with
    | some err =>
        { err := some err, trace := printed ++ [SSHEvent.setupIOPassthrough cmd interactive] }
    | none =>
        { err := env.run cmd,
          trace := printed ++ [SSHEvent.setupIOPassthrough cmd interactive, SSHEvent.run cmd] }
  else
    { err := env.run cmd, trace := printed ++ [SSHEvent.run cmd] }

/-- The function `CommonSSH`. -/
def CommonSSH (env : SSHEnv) (username identityPath name : String) (sshPort : Int)
    (inputArgs : List String) : SSHOutcome :=
  commonSSH env username identityPath name sshPort inputArgs false

/-- The function `CommonSSHSilent`. -/
def CommonSSHSilent (env : SSHEnv) (username identityPath name : String) (sshPort : Int)
    (inputArgs : List String) : SSHOutcome :=
  commonSSH env username identityPath name sshPort inputArgs true

/-- The commands a trace runs, in order. -/
def runsOf : List SSHEvent → List Cmd
  | [] => []
  | SSHEvent.run cmd :: rest => cmd :: runsOf rest
  | _ :: rest => runsOf rest

/-- The argument list of the ssh command as the specification gives it: the fixed options,
then `inputArgs` when there are any and `-t` when there are none. -/
def specArgs (username identityPath : String) (sshPort : Int) (inputArgs : List String) :
    List String :=
  ["-i", identityPath, "-p", Itoa sshPort, username ++ "@localhost", "-o",
    "IdentitiesOnly=yes", "-o", "StrictHostKeyChecking=no", "-o", "LogLevel=ERROR", "-o",
    "SetEnv=LC_ALL="] ++ (if inputArgs = [] then ["-t"] else inputArgs)

/-- A platform on which the passthrough setup and the run succeed. -/
def sshOkEnv : SSHEnv :=
  { setupIOPassthrough := fun _ _ => none, run := fun _ => none }

/-- A platform on which the passthrough setup fails (no pipe could be opened). -/
def sshNoPipeEnv : SSHEnv :=
  { setupIOPassthrough := fun _ _ => some (GoError.text "too many open files"),
    run := fun _ => none }

/-! ## shim/diskpull/diskpull.go -/

/-- The type `define.VMFile`, declared in another package; a file path. -/
structure VMFile where
  Path : String
  deriving DecidableEq, Repr

/-- The type `define.MachineDirs`, declared in another package; `GetDisk` reads the field
`DataDir`, a pointer to a `VMFile` (`none` is Go's `nil`). -/
structure MachineDirs where
  DataDir : Option VMFile
  deriving DecidableEq, Repr

/-- The function `strings.HasPrefix`. -/
def HasPrefix (s : String) (start : String) : Bool :=
  start.toList.isPrefixOf s.toList

/-- The three constructor calls of `GetDisk`, each with the arguments it is given (the
`context.Background()` of the first and the `nil` of the second left out).  Pointer
arguments are options, `none` being `nil`. -/
inductive DiskCall where
  | NewOCIArtifactPull (dirs : Option MachineDirs) (name : String) (vmType : Nat)
      (imagePath : Option VMFile)
  | NewDiskFromURL (inputPath : String) (imagePath : Option VMFile)
      (dataDir : Option VMFile)
  | NewStdDiskPull (inputPath : String) (imagePath : Option VMFile)
  deriving DecidableEq, Repr

/-- The three ways to acquire a disk. -/
inductive Strategy where
  | pullByName
  | fetchByURL
  | useLocalPath
  deriving DecidableEq, Repr

/-- The strategy a constructor call stands for. -/
def DiskCall.strategy : DiskCall → Strategy
  | DiskCall.NewOCIArtifactPull _ _ _ _ => Strategy.pullByName
  | DiskCall.NewDiskFromURL _ _ _ => Strategy.fetchByURL
  | DiskCall.NewStdDiskPull _ _ => Strategy.useLocalPath

/-- Effects `GetDisk` requests: a constructor call, and `Get()` on the disk that call
built. -/
inductive DiskEvent where
  | construct (call : DiskCall)
  | get (call : DiskCall)
  deriving DecidableEq, Repr

/-- What the packages `ocipull` and `stdpull` answer: the error of a constructor call
(`none` when it builds a disk) and the result of `Get()` on the disk it built. -/
structure DiskEnv where
  construct : DiskCall → Option GoError
  get : DiskCall → Option GoError

/-- How a call of `GetDisk` ends: it returns an error value (`none` is `nil`), or it
panics on a nil pointer dereference. -/
inductive DiskResult where
  | returned (err : Option GoError)
  | panicked
  deriving DecidableEq, Repr

/-- How `GetDisk` ends and the effects it requested. -/
structure DiskOutcome where
  result : DiskResult
  trace : List DiskEvent
  deriving DecidableEq, Repr

/-- Lines 28 to 31 of `GetDisk`, after the constructor call `call` was chosen: the error of
the constructor is returned, or else the result of `Get()`. -/
def constructAndGet (env : DiskEnv) (call : DiskCall) : DiskOutcome :=
  match env.construct call with
  | some err =>
      { result := DiskResult.returned (some err), trace := [DiskEvent.construct call] }
  | none =>
      { result := DiskResult.returned (env.get call),
        trace := [DiskEvent.construct call, DiskEvent.get call] }

/-- The function `GetDisk`; `vmType` is a value of the enumeration `define.VMType`.  The
pointer `dirs` is dereferenced in the URL branch only, to read `dirs.DataDir` for the
argument list, before the constructor is called. -/
def GetDisk (env : DiskEnv) (userInputPath : String) (dirs : Option MachineDirs)
    (imagePath : Option VMFile) (vmType : Nat) (name : String) : DiskOutcome :=
  if userInputPath = "" then
    constructAndGet env (DiskCall.NewOCIArtifactPull dirs name vmType imagePath)
  else
    if HasPrefix userInputPath "http" then
      match dirs with
      | none => { result := DiskResult.panicked, trace := [] }
      | some d =>
          constructAndGet env (DiskCall.NewDiskFromURL userInputPath imagePath d.DataDir)
    else
      constructAndGet env (DiskCall.NewStdDiskPull userInputPath imagePath)

/-- The constructor calls of a trace, in order. -/
def constructsOf : List DiskEvent → List DiskCall
  | [] => []
  | DiskEvent.construct call :: rest => call :: constructsOf rest
  | _ :: rest => constructsOf rest

/-- The strategies a call of `GetDisk` went on to construct, in order. -/
def strategiesOf (out : DiskOutcome) : List Strategy :=
  (constructsOf out.trace).map DiskCall.strategy

/-- A character that may follow the first letter of a URL scheme: a letter, a digit, `+`,
`-` or `.`. -/
def isSchemeChar (c : Char) : Bool :=
  c.isAlphanum || c == '+' || c == '-' || c == '.'

/-- The characters after the first of a text that continues a scheme up to `://`. -/
def schemeThenSlashes : List Char → Bool
  | [] => false
  | c :: rest =>
      (c == ':' && (match rest with
        | a :: b :: _ => a == '/' && b == '/'
        | _ => false))
      || (isSchemeChar c && schemeThenSlashes rest)

/-- A text is URL-shaped, in the usual sense of the word, when it is a scheme (a letter,
then letters, digits, `+`, `-`, `.`, in either case) followed by `://`; this is written
from the meaning of the word and not from `GetDisk`. -/
def urlShaped (userInputPath : String) : Bool :=
  match userInputPath.toList with
  | [] => false
  | c :: rest => c.isAlpha && schemeThenSlashes rest

/-- The outcome of a call that chose the constructor call `call`, as the specification
words it: when constructing fails that error is returned and `Get` is not called, and
otherwise the result of `Get` on that disk is returned. -/
def dispatchesTo (env : DiskEnv) (out : DiskOutcome) (call : DiskCall) : Prop :=
  (∀ e, env.construct call = some e →
    out = { result := DiskResult.returned (some e),
            trace := [DiskEvent.construct call] }) ∧
  (env.construct call = none →
    out = { result := DiskResult.returned (env.get call),
            trace := [DiskEvent.construct call, DiskEvent.get call] })

/-- A platform on which every constructor builds a disk whose `Get` fails. -/
def diskGetFailsEnv : DiskEnv :=
  { construct := fun _ => none, get := fun _ => some (GoError.text "download failed") }

/-- A platform on which every constructor fails. -/
def diskNoneEnv : DiskEnv :=
  { construct := fun _ => some (GoError.text "invalid image"), get := fun _ => none }

/-- The directories of a machine whose data directory is `/data`. -/
def sampleDirs : MachineDirs := { DataDir := some { Path := "/data" } }

/-! ## Lemmas on the loop -/

theorem wrapInt64_of_bounds (x : Int) (h0 : -9223372036854775808 ≤ x)
    (h1 : x < 9223372036854775808) : wrapInt64 x = x := by
  unfold wrapInt64
  omega

theorem schedule_succ (d : Int) (m : Nat) : schedule d (m + 1) = d :: schedule (2 * d) m := by
  unfold schedule
  rw [List.range_succ_eq_map, List.map_cons, List.map_map]
  simp only [pow_zero, mul_one, List.cons.injEq, true_and]
  apply List.map_congr_left
  intro j _
  simp only [Function.comp_apply, pow_succ]
  ring

theorem pollSleeps_succ (pid d : Int) (k : Nat) :
    pollSleeps pid d (k + 1)
      = Event.isRunning pid :: Event.sleep d :: pollSleeps pid (2 * d) k := by
  unfold pollSleeps
  rw [List.range_succ_eq_map, List.flatMap_cons, List.flatMap_map]
  simp only [pow_zero, mul_one, List.cons_append, List.nil_append, List.cons.injEq, true_and]
  congr 1
  funext j
  simp only [pow_succ, List.cons.injEq, Event.sleep.injEq, true_and, and_true]
  ring

theorem sleepsOf_append (xs ys : List Event) :
    sleepsOf (xs ++ ys) = sleepsOf xs ++ sleepsOf ys := by
  induction xs with
  | nil => rfl
  | cons x xs ih => cases x <;> simp [sleepsOf, ih]

theorem queriesOf_append (xs ys : List Event) :
    queriesOf (xs ++ ys) = queriesOf xs + queriesOf ys := by
  induction xs with
  | nil => simp [queriesOf]
  | cons x xs ih =>
    cases x <;> simp [queriesOf, ih]
    omega

theorem signalsOf_append (xs ys : List Event) :
    signalsOf (xs ++ ys) = signalsOf xs ++ signalsOf ys := by
  induction xs with
  | nil => rfl
  | cons x xs ih => cases x <;> simp [signalsOf, ih]

theorem sleepsOf_pollSleeps (pid d : Int) (k : Nat) :
    sleepsOf (pollSleeps pid d k) = schedule d k := by
  induction k generalizing d with
  | zero => rfl
  | succ k ih => rw [pollSleeps_succ, schedule_succ]; simp [sleepsOf, ih]

theorem queriesOf_pollSleeps (pid d : Int) (k : Nat) :
    queriesOf (pollSleeps pid d k) = k := by
  induction k generalizing d with
  | zero => rfl
  | succ k ih => rw [pollSleeps_succ]; simp [queriesOf, ih]

theorem signalsOf_pollSleeps (pid d : Int) (k : Nat) :
    signalsOf (pollSleeps pid d k) = [] := by
  induction k generalizing d with
  | zero => rfl
  | succ k ih => rw [pollSleeps_succ]; simp [signalsOf, ih]

theorem sum_schedule (d : Int) (m : Nat) : (schedule d m).sum = d * (2 ^ m - 1) := by
  induction m generalizing d with
  | zero => simp [schedule]
  | succ m ih => rw [schedule_succ, List.sum_cons, ih, pow_succ]; ring

theorem double_bounds (d : Int) (r : Nat) (h0 : 0 ≤ d)
    (h1 : d * 2 ^ (r + 1) < 9223372036854775808) :
    wrapInt64 (d + d) = 2 * d ∧ 0 ≤ 2 * d ∧ 2 * d * 2 ^ r < 9223372036854775808 := by
  have hp : (1 : Int) ≤ 2 ^ r := one_le_pow₀ (by norm_num)
  have h2 : 2 * d * 2 ^ r = d * 2 ^ (r + 1) := by rw [pow_succ]; ring
  have h3 : 2 * d ≤ 2 * d * 2 ^ r := le_mul_of_one_le_right (by omega) hp
  refine ⟨?_, by omega, by omega⟩
  rw [wrapInt64_of_bounds] <;> omega

/-- While the polls answer running, the loop queries, sleeps and doubles. -/
theorem backoffLoop_running (p : Process) (a : Nat → Except GoError Bool) (k : Nat) :
    ∀ (remaining i : Nat) (d : Int), k ≤ remaining → 0 ≤ d →
      d * 2 ^ k < 9223372036854775808 → (∀ j, j < k → a (i + j) = Except.ok true) →
      backoffLoop p a remaining i d
        = { err := (backoffLoop p a (remaining - k) (i + k) (d * 2 ^ k)).err,
            trace := pollSleeps p.Pid d k
              ++ (backoffLoop p a (remaining - k) (i + k) (d * 2 ^ k)).trace } := by
  induction k with
  | zero => intro remaining i d _ _ _ _; simp [pollSleeps]
  | succ k ih =>
    intro remaining i d hk h0 h1 ha
    obtain ⟨r, rfl⟩ : ∃ r, remaining = r + 1 := ⟨remaining - 1, by omega⟩
    obtain ⟨hw, h0', h1'⟩ := double_bounds d k h0 h1
    have hfirst : a i = Except.ok true := by simpa using ha 0 (by omega)
    have hrest : ∀ j, j < k → a (i + 1 + j) = Except.ok true := by
      intro j hj
      have := ha (j + 1) (by omega)
      rwa [show i + (j + 1) = i + 1 + j by omega] at this
    have hstep := ih r (i + 1) (2 * d) (by omega) h0' h1' hrest
    have e1 : r + 1 - (k + 1) = r - k := by omega
    have e2 : i + (k + 1) = i + 1 + k := by omega
    have e3 : d * 2 ^ (k + 1) = 2 * d * 2 ^ k := by rw [pow_succ]; ring
    rw [backoffLoop, hfirst]
    simp only [hw]
    rw [hstep, pollSleeps_succ, e1, e2, e3]
    rfl

theorem backoffLoop_query_error (p : Process) (a : Nat → Except GoError Bool)
    (r i : Nat) (d : Int) (e : GoError) (h : a i = Except.error e) :
    backoffLoop p a (r + 1) i d
      = { err := some (GoError.wrapped "checking if process running: " e),
          trace := [Event.isRunning p.Pid] } := by
  rw [backoffLoop, h]

theorem backoffLoop_not_running (p : Process) (a : Nat → Except GoError Bool)
    (r i : Nat) (d : Int) (h : a i = Except.ok false) :
    backoffLoop p a (r + 1) i d = { err := none, trace := [Event.isRunning p.Pid] } := by
  rw [backoffLoop, h]

theorem sleepTime_bounds (k : Nat) (hk : k ≤ loops) :
    0 ≤ sleepTime ∧ sleepTime * 2 ^ k < 9223372036854775808 := by
  unfold loops at hk
  unfold sleepTime
  interval_cases k <;> norm_num

/-- The loop started with `k` running answers ahead of it, `k` within the budget. -/
theorem backoffForProcess_running (p : Process) (a : Nat → Except GoError Bool) (k : Nat)
    (hk : k ≤ loops) (ha : ∀ j, j < k → a j = Except.ok true) :
    backoffForProcess p a
      = { err := (backoffLoop p a (loops - k) k (sleepTime * 2 ^ k)).err,
          trace := pollSleeps p.Pid sleepTime k
            ++ (backoffLoop p a (loops - k) k (sleepTime * 2 ^ k)).trace } := by
  have h := backoffLoop_running p a k loops 0 sleepTime hk (sleepTime_bounds k hk).1
    (sleepTime_bounds k hk).2 (by intro j hj; simpa using ha j hj)
  simpa [backoffForProcess] using h

/-- The sleeps of the loop are a prefix of the doubling schedule, the whole of it exactly
when every poll answers running. -/
theorem backoffLoop_sleeps (p : Process) (a : Nat → Except GoError Bool) :
    ∀ (remaining i : Nat) (d : Int), 0 ≤ d → d * 2 ^ remaining < 9223372036854775808 →
      ∃ m, m ≤ remaining ∧ sleepsOf (backoffLoop p a remaining i d).trace = schedule d m ∧
        (m = remaining ↔ ∀ j, j < remaining → a (i + j) = Except.ok true) := by
  intro remaining
  induction remaining with
  | zero =>
    intro i d _ _
    exact ⟨0, le_refl 0, rfl, by simp⟩
  | succ r ih =>
    intro i d h0 h1
    obtain ⟨hw, h0', h1'⟩ := double_bounds d r h0 h1
    cases hq : a i with
    | error e =>
      refine ⟨0, by omega, by rw [backoffLoop_query_error p a r i d e hq]; rfl, ?_⟩
      constructor
      · intro h; omega
      · intro h
        have := h 0 (by omega)
        simp [hq] at this
    | ok b =>
      cases b with
      | false =>
        refine ⟨0, by omega, by rw [backoffLoop_not_running p a r i d hq]; rfl, ?_⟩
        constructor
        · intro h; omega
        · intro h
          have := h 0 (by omega)
          simp [hq] at this
      | true =>
        obtain ⟨m, hm, hs, hiff⟩ := ih (i + 1) (2 * d) h0' h1'
        refine ⟨m + 1, by omega, ?_, ?_⟩
        · rw [backoffLoop, hq]
          simp only [hw, sleepsOf]
          rw [hs, schedule_succ]
        · constructor
          · intro h j hj
            cases j with
            | zero => simpa using hq
            | succ j =>
              have := hiff.1 (by omega) j (by omega)
              rwa [show i + 1 + j = i + (j + 1) by omega] at this
          · intro h
            have : m = r := hiff.2 (by
              intro j hj
              have := h (j + 1) (by omega)
              rwa [show i + (j + 1) = i + 1 + j by omega] at this)
            omega

theorem sum_schedule_le (d : Int) (m n : Nat) (h0 : 0 < d) (hmn : m ≤ n) :
    (schedule d m).sum ≤ d * (2 ^ n - 1) ∧
      ((schedule d m).sum = d * (2 ^ n - 1) ↔ m = n) := by
  rw [sum_schedule]
  have hpow : (2 : Int) ^ m ≤ 2 ^ n := pow_le_pow_right₀ (by norm_num) hmn
  constructor
  · exact mul_le_mul_of_nonneg_left (by omega) (le_of_lt h0)
  · constructor
    · intro h
      have h2 : (2 : Int) ^ m - 1 = 2 ^ n - 1 := mul_left_cancel₀ (ne_of_gt h0) h
      have h3 : (2 : Int) ^ m = 2 ^ n := by omega
      exact Int.pow_right_injective (by norm_num) h3
    · intro h; rw [h]

/-! ## backoffForProcess -/

/-- C2: when every one of the `loops` polls answers running, `backoffForProcess` makes
exactly `loops = 8` liveness queries of the process `p` (each followed by a sleep) and then
returns a non-nil error whose message is `process <pid> has not ended`, `<pid>` being
`p.Pid` printed with `%d`. -/
theorem backoffForProcess_timeout (p : Process) (a : Nat → Except GoError Bool)
    (h : ∀ i, i < loops → a i = Except.ok true) :
    loops = 8 ∧
    (backoffForProcess p a).trace = pollSleeps p.Pid sleepTime loops ∧
    queriesOf (backoffForProcess p a).trace = loops ∧
    ∃ e, (backoffForProcess p a).err = some e ∧
      ∀ errnoText, e.Error errnoText = "process " ++ fmtD p.Pid ++ " has not ended" := by
  have hrun := backoffForProcess_running p a loops (le_refl _) h
  rw [Nat.sub_self] at hrun
  have htrace : (backoffForProcess p a).trace = pollSleeps p.Pid sleepTime loops := by
    rw [hrun]; simp [backoffLoop]
  refine ⟨rfl, htrace, ?_, ?_⟩
  · rw [htrace, queriesOf_pollSleeps]
  · refine ⟨GoError.text ("process " ++ fmtD p.Pid ++ " has not ended"), ?_, fun _ => rfl⟩
    rw [hrun]; rfl

/-- Witness of C2: process 4242 that never stops running. -/
theorem backoffForProcess_timeout_witness :
    (∀ i, i < loops → alwaysRunning i = Except.ok true) ∧
    queriesOf (backoffForProcess ⟨4242⟩ alwaysRunning).trace = 8 ∧
    ∃ e, (backoffForProcess ⟨4242⟩ alwaysRunning).err = some e ∧
      ∀ errnoText, e.Error errnoText = "process 4242 has not ended" :=
  ⟨fun _ _ => rfl,
   (backoffForProcess_timeout ⟨4242⟩ alwaysRunning (fun _ _ => rfl)).2.2.1,
   (backoffForProcess_timeout ⟨4242⟩ alwaysRunning (fun _ _ => rfl)).2.2.2⟩

/-- C3: whatever the liveness answers are, the sleeps requested by `backoffForProcess`
are the first `m` terms, for some `m ≤ loops`, of the doubling schedule
`sleepTime * 2 ^ i` (`1, 2, 4, ..., 128` ms); their total is at most
`sleepTime * (2 ^ loops - 1)`, which is 255 ms, and reaches it exactly when all 8 polls
answer running, which is exactly when `m = loops`. -/
theorem backoffForProcess_sleep_schedule (p : Process) (a : Nat → Except GoError Bool) :
    (∃ m, m ≤ loops ∧
      sleepsOf (backoffForProcess p a).trace = schedule sleepTime m ∧
      (m = loops ↔ ∀ i, i < loops → a i = Except.ok true)) ∧
    schedule sleepTime loops
      = [1000000, 2000000, 4000000, 8000000, 16000000, 32000000, 64000000, 128000000] ∧
    (sleepsOf (backoffForProcess p a).trace).sum ≤ sleepTime * (2 ^ loops - 1) ∧
    sleepTime * (2 ^ loops - 1) = 255000000 ∧
    ((sleepsOf (backoffForProcess p a).trace).sum = sleepTime * (2 ^ loops - 1)
      ↔ ∀ i, i < loops → a i = Except.ok true) := by
  obtain ⟨m, hm, hs, hiff⟩ := backoffLoop_sleeps p a loops 0 sleepTime
    (sleepTime_bounds loops (le_refl _)).1 (sleepTime_bounds loops (le_refl _)).2
  have hiff2 : m = loops ↔ ∀ i, i < loops → a i = Except.ok true := by
    simpa using hiff
  have hs2 : sleepsOf (backoffForProcess p a).trace = schedule sleepTime m := hs
  obtain ⟨hle, heq⟩ := sum_schedule_le sleepTime m loops (by decide) hm
  refine ⟨⟨m, hm, hs2, hiff2⟩, by decide, ?_, by decide, ?_⟩
  · rw [hs2]; exact hle
  · rw [hs2]; exact heq.trans hiff2

/-- C4, as the code has it: if the polls 1 to `k - 1` answer running and poll `k`
(`1 ≤ k ≤ loops`) fails with the error `e`, `backoffForProcess` stops at poll `k`, after
exactly `k` queries and the `k - 1` sleeps of the doubling schedule, with no sleep after
the failing query, and returns `e` wrapped by
`fmt.Errorf("checking if process running: %w", e)`: an error that is not `e` itself, whose
message is that of `e` after the context, and which wraps `e`. -/
theorem backoffForProcess_query_error (p : Process) (a : Nat → Except GoError Bool)
    (k : Nat) (e : GoError) (hk1 : 1 ≤ k) (hk : k ≤ loops)
    (hrun : ∀ j, j < k - 1 → a j = Except.ok true) (herr : a (k - 1) = Except.error e) :
    backoffForProcess p a
      = { err := some (GoError.wrapped "checking if process running: " e),
          trace := pollSleeps p.Pid sleepTime (k - 1) ++ [Event.isRunning p.Pid] } ∧
    queriesOf (backoffForProcess p a).trace = k ∧
    sleepsOf (backoffForProcess p a).trace = schedule sleepTime (k - 1) ∧
    (backoffForProcess p a).trace.getLast? = some (Event.isRunning p.Pid) ∧
    (backoffForProcess p a).err ≠ some e ∧
    errorsIs (GoError.wrapped "checking if process running: " e) e = true ∧
    ∀ errnoText, (GoError.wrapped "checking if process running: " e).Error errnoText
      = "checking if process running: " ++ e.Error errnoText := by
  have hrun' := backoffForProcess_running p a (k - 1) (by omega) hrun
  obtain ⟨r, hr⟩ : ∃ r, loops - (k - 1) = r + 1 := ⟨loops - (k - 1) - 1, by omega⟩
  rw [hr, backoffLoop_query_error p a r (k - 1) _ e herr] at hrun'
  have herrIs : errorsIs (GoError.wrapped "checking if process running: " e) e = true := by
    cases e <;> simp [errorsIs]
  have hne : some (GoError.wrapped "checking if process running: " e) ≠ some e := by
    intro h
    have h2 := congrArg (Option.map sizeOf) h
    simp at h2
  refine ⟨hrun', ?_, ?_, ?_, ?_, herrIs, fun _ => rfl⟩
  · rw [hrun']
    simp only [queriesOf_append, queriesOf_pollSleeps, queriesOf]
    omega
  · rw [hrun']
    simp [sleepsOf_append, sleepsOf_pollSleeps, sleepsOf]
  · rw [hrun']; simp
  · rw [hrun']; exact hne

/-- Witness of C4 as amended: two polls answer running, the third fails. -/
theorem backoffForProcess_query_error_witness :
    backoffForProcess ⟨4242⟩
        (runningThen 2 (Except.error (GoError.text "permission denied")))
      = { err := some (GoError.wrapped "checking if process running: "
            (GoError.text "permission denied")),
          trace := pollSleeps 4242 sleepTime (3 - 1) ++ [Event.isRunning 4242] } :=
  (backoffForProcess_query_error ⟨4242⟩
    (runningThen 2 (Except.error (GoError.text "permission denied"))) 3
    (GoError.text "permission denied") (by decide) (by decide)
    (by intro j hj; have hj2 : j < 2 := hj; simp [runningThen, hj2])
    (by simp [runningThen])).1

/-- Counterexample to C4 as stated: the first poll of process 4242 fails with
`permission denied`; the error returned is not that error but a new one around it, with
another message. -/
theorem backoffForProcess_query_error_not_unchanged :
    (backoffForProcess ⟨4242⟩
        (runningThen 0 (Except.error (GoError.text "permission denied")))).err
      = some (GoError.wrapped "checking if process running: "
          (GoError.text "permission denied")) ∧
    (backoffForProcess ⟨4242⟩
        (runningThen 0 (Except.error (GoError.text "permission denied")))).err
      ≠ some (GoError.text "permission denied") ∧
    (GoError.wrapped "checking if process running: "
        (GoError.text "permission denied")).Error (fun _ => "")
      ≠ (GoError.text "permission denied").Error (fun _ => "") := by
  decide

/-- C5: if the polls 1 to `k - 1` answer running and poll `k` (`1 ≤ k ≤ loops`) answers
not running, `backoffForProcess` returns nil after exactly `k` queries and exactly `k - 1`
sleeps, of `sleepTime, 2 * sleepTime, ..., 2 ^ (k - 2) * sleepTime`, each query but the
last followed by its sleep and the `k`-th query followed by none. -/
theorem backoffForProcess_exit (p : Process) (a : Nat → Except GoError Bool)
    (k : Nat) (hk1 : 1 ≤ k) (hk : k ≤ loops)
    (hrun : ∀ j, j < k - 1 → a j = Except.ok true) (hstop : a (k - 1) = Except.ok false) :
    backoffForProcess p a
      = { err := none,
          trace := pollSleeps p.Pid sleepTime (k - 1) ++ [Event.isRunning p.Pid] } ∧
    queriesOf (backoffForProcess p a).trace = k ∧
    sleepsOf (backoffForProcess p a).trace = schedule sleepTime (k - 1) ∧
    (sleepsOf (backoffForProcess p a).trace).length = k - 1 ∧
    (backoffForProcess p a).trace.getLast? = some (Event.isRunning p.Pid) := by
  have hrun' := backoffForProcess_running p a (k - 1) (by omega) hrun
  obtain ⟨r, hr⟩ : ∃ r, loops - (k - 1) = r + 1 := ⟨loops - (k - 1) - 1, by omega⟩
  rw [hr, backoffLoop_not_running p a r (k - 1) _ hstop] at hrun'
  have hsl : sleepsOf (backoffForProcess p a).trace = schedule sleepTime (k - 1) := by
    rw [hrun']
    simp [sleepsOf_append, sleepsOf_pollSleeps, sleepsOf]
  refine ⟨hrun', ?_, hsl, ?_, ?_⟩
  · rw [hrun']
    simp only [queriesOf_append, queriesOf_pollSleeps, queriesOf]
    omega
  · rw [hsl]; simp [schedule]
  · rw [hrun']; simp

/-- Witness of C5: the answers running, running, not running give nil after the sleeps of
1 ms and 2 ms and three queries, the third one last; and a first answer not running gives
nil after one query and no sleep. -/
theorem backoffForProcess_exit_witness :
    (backoffForProcess ⟨4242⟩ (runningThen 2 (Except.ok false))
      = { err := none,
          trace := [Event.isRunning 4242, Event.sleep 1000000, Event.isRunning 4242,
            Event.sleep 2000000, Event.isRunning 4242] }) ∧
    (backoffForProcess ⟨4242⟩ (runningThen 0 (Except.ok false))
      = { err := none, trace := [Event.isRunning 4242] }) :=
  ⟨(backoffForProcess_exit ⟨4242⟩ (runningThen 2 (Except.ok false)) 3 (by decide) (by decide)
      (by intro j hj; have hj2 : j < 2 := hj; simp [runningThen, hj2])
      (by simp [runningThen])).1,
   (backoffForProcess_exit ⟨4242⟩ (runningThen 0 (Except.ok false)) 1 (by decide) (by decide)
      (by intro j hj; exact absurd hj (Nat.not_lt_zero j))
      (by simp [runningThen])).1⟩

/-! ## waitOnProcess -/

theorem signalsOf_backoffLoop (p : Process) (a : Nat → Except GoError Bool) :
    ∀ (remaining i : Nat) (d : Int), signalsOf (backoffLoop p a remaining i d).trace = [] := by
  intro remaining
  induction remaining with
  | zero => intro i d; rfl
  | succ r ih =>
    intro i d
    rw [backoffLoop]
    cases hq : a i with
    | error e => rfl
    | ok b =>
      cases b with
      | false => rfl
      | true => simp only [signalsOf]; exact ih _ _

/-- C1, as the code has it: when the lookup of the process succeeds and the initial
liveness query answers not running, `waitOnProcess` returns nil after the lookup and that
one query, without a signal and without a sleep; and so does every call of a run of
repeated calls on that process ID, each of which finds the process absent in this way. -/
theorem waitOnProcess_not_running (processID : Int) (envs : List Env)
    (h : ∀ env, env ∈ envs →
      (∃ p, env.newProcess (toInt32 processID) = Except.ok p) ∧
        env.isRunning 0 = Except.ok false) :
    ∀ env, env ∈ envs →
      (waitOnProcess env processID).err = none ∧
      signalsOf (waitOnProcess env processID).trace = [] ∧
      sleepsOf (waitOnProcess env processID).trace = [] ∧
      queriesOf (waitOnProcess env processID).trace = 1 := by
  intro env henv
  obtain ⟨⟨p, hp⟩, hq⟩ := h env henv
  simp [waitOnProcess, hp, hq, signalsOf, sleepsOf, queriesOf]

/-- Witness of C1 as amended: three calls in a row on process 4242, already gone. -/
theorem waitOnProcess_not_running_witness :
    (waitOnProcess goneEnv 4242).err = none ∧
    signalsOf (waitOnProcess goneEnv 4242).trace = [] ∧
    sleepsOf (waitOnProcess goneEnv 4242).trace = [] ∧
    queriesOf (waitOnProcess goneEnv 4242).trace = 1 :=
  waitOnProcess_not_running 4242 [goneEnv, goneEnv, goneEnv]
    (by
      intro env henv
      simp only [List.mem_cons, List.mem_singleton, List.not_mem_nil, or_false, or_self]
        at henv
      subst henv
      exact ⟨⟨_, rfl⟩, rfl⟩)
    goneEnv (List.mem_cons_self _ _)

/-- Counterexample to C1 as stated: when it is the lookup `psutil.NewProcess` that reports
process 4242 absent, `waitOnProcess` returns a non-nil error, the lookup's error after the
context `looking up PID 4242: `. -/
theorem waitOnProcess_lookup_absent_is_error :
    (waitOnProcess missingEnv 4242).err
      = some (GoError.wrapped "looking up PID 4242: "
          (GoError.text "process does not exist")) ∧
    (waitOnProcess missingEnv 4242).err ≠ none := by
  decide

/-- C6: when the initial liveness check reports running and the kill request fails with
`e`, `waitOnProcess` returns nil if `errors.Is(e, syscall.ESRCH)` and returns `e` itself
otherwise; either way the trace is the lookup, the one initial query and the kill
request: no backoff poll and no sleep. -/
theorem waitOnProcess_kill_fails (env : Env) (processID : Int) (p : Process) (e : GoError)
    (hp : env.newProcess (toInt32 processID) = Except.ok p)
    (hq : env.isRunning 0 = Except.ok true) (hkill : env.kill = some e) :
    (errorsIs e ESRCH = true → (waitOnProcess env processID).err = none) ∧
    (errorsIs e ESRCH = false → (waitOnProcess env processID).err = some e) ∧
    (waitOnProcess env processID).trace
      = [Event.newProcess (toInt32 processID), Event.isRunning p.Pid,
          Event.signal p.Pid Signal.SIGKILL] ∧
    queriesOf (waitOnProcess env processID).trace = 1 ∧
    sleepsOf (waitOnProcess env processID).trace = [] := by
  cases hE : errorsIs e ESRCH <;>
    simp [waitOnProcess, hp, hq, hkill, hE, sleepsOf, queriesOf]

/-- Witness of C6: the kill of process 4242 fails once with `ESRCH` under a context and
once with `EPERM`. -/
theorem waitOnProcess_kill_fails_witness :
    (waitOnProcess (killFailsEnv (GoError.wrapped "kill: " ESRCH)) 4242).err = none ∧
    (waitOnProcess (killFailsEnv (GoError.errno 1)) 4242).err = some (GoError.errno 1) ∧
    (waitOnProcess (killFailsEnv (GoError.errno 1)) 4242).trace
      = [Event.newProcess 4242, Event.isRunning 4242, Event.signal 4242 Signal.SIGKILL] :=
  ⟨(waitOnProcess_kill_fails (killFailsEnv (GoError.wrapped "kill: " ESRCH)) 4242 ⟨4242⟩
      (GoError.wrapped "kill: " ESRCH) rfl rfl rfl).1 (by decide),
   (waitOnProcess_kill_fails (killFailsEnv (GoError.errno 1)) 4242 ⟨4242⟩
      (GoError.errno 1) rfl rfl rfl).2.1 (by decide),
   (waitOnProcess_kill_fails (killFailsEnv (GoError.errno 1)) 4242 ⟨4242⟩
      (GoError.errno 1) rfl rfl rfl).2.2.1⟩

/-- C7: a call of `waitOnProcess` requests at most one signal.  When the initial liveness
check reports running it requests exactly one, and the request stands in the trace right
after the lookup and the initial check and before everything `backoffForProcess` does,
which holds every later liveness poll and no signal.  When the lookup fails, or the
initial check fails or reports not running, it requests none. -/
theorem waitOnProcess_one_signal (env : Env) (processID : Int) :
    (signalsOf (waitOnProcess env processID).trace).length ≤ 1 ∧
    (∀ p, env.newProcess (toInt32 processID) = Except.ok p →
      env.isRunning 0 = Except.ok true →
        (signalsOf (waitOnProcess env processID).trace).length = 1 ∧
        ∃ rest,
          (waitOnProcess env processID).trace
            = [Event.newProcess (toInt32 processID), Event.isRunning p.Pid,
                Event.signal p.Pid Signal.SIGKILL] ++ rest ∧
          signalsOf rest = [] ∧
          (env.kill = none →
            rest = (backoffForProcess p (fun i => env.isRunning (i + 1))).trace) ∧
          (env.kill ≠ none → rest = [])) ∧
    ((∃ e, env.newProcess (toInt32 processID) = Except.error e) →
      signalsOf (waitOnProcess env processID).trace = []) ∧
    ((∃ e, env.isRunning 0 = Except.error e) →
      signalsOf (waitOnProcess env processID).trace = []) ∧
    (env.isRunning 0 = Except.ok false →
      signalsOf (waitOnProcess env processID).trace = []) := by
  have hback : ∀ p : Process,
      signalsOf (backoffForProcess p (fun i => env.isRunning (i + 1))).trace = [] :=
    fun p => signalsOf_backoffLoop p _ loops 0 sleepTime
  cases hp : env.newProcess (toInt32 processID) with
  | error e0 => simp [waitOnProcess, hp, signalsOf]
  | ok p =>
    cases hq : env.isRunning 0 with
    | error e1 => simp [waitOnProcess, hp, hq, signalsOf]
    | ok b =>
      cases b with
      | false => simp [waitOnProcess, hp, hq, signalsOf]
      | true =>
        cases hk : env.kill with
        | none => simp [waitOnProcess, hp, hq, hk, signalsOf, hback]
        | some e2 =>
          by_cases hE : errorsIs e2 ESRCH = true <;>
            simp [waitOnProcess, hp, hq, hk, hE, signalsOf]

/-- Instances of C7: a process that keeps running gets one signal, ahead of the eight
polls of the backoff; a failed lookup, a failed initial check and a process already gone
get none. -/
theorem waitOnProcess_one_signal_witness :
    (signalsOf (waitOnProcess stubbornEnv 4242).trace).length = 1 ∧
    (waitOnProcess stubbornEnv 4242).trace
      = [Event.newProcess 4242, Event.isRunning 4242, Event.signal 4242 Signal.SIGKILL]
        ++ pollSleeps 4242 sleepTime 8 ∧
    signalsOf (waitOnProcess missingEnv 4242).trace = [] ∧
    signalsOf (waitOnProcess queryFailsEnv 4242).trace = [] ∧
    signalsOf (waitOnProcess goneEnv 4242).trace = [] :=
  ⟨((waitOnProcess_one_signal stubbornEnv 4242).2.1 ⟨4242⟩ rfl rfl).1,
   by decide,
   (waitOnProcess_one_signal missingEnv 4242).2.2.1 ⟨_, rfl⟩,
   (waitOnProcess_one_signal queryFailsEnv 4242).2.2.2.1 ⟨_, rfl⟩,
   (waitOnProcess_one_signal goneEnv 4242).2.2.2.2 rfl⟩

/-- C8 at a process that never ends: `waitOnProcess` requests one signal, the `SIGKILL` of
`p.Kill()`, polls eight times and returns the timeout error; it requests no `SIGTERM`
before it and no second signal after the polls.  On no platform does a call request a
`SIGTERM` or a second signal. -/
theorem waitOnProcess_sends_only_kill :
    signalsOf (waitOnProcess stubbornEnv 4242).trace = [Signal.SIGKILL] ∧
    (waitOnProcess stubbornEnv 4242).trace
      = [Event.newProcess 4242, Event.isRunning 4242, Event.signal 4242 Signal.SIGKILL]
        ++ pollSleeps 4242 sleepTime 8 ∧
    (waitOnProcess stubbornEnv 4242).err
      = some (GoError.text "process 4242 has not ended") ∧
    ∀ (env : Env) (processID : Int),
      signalsOf (waitOnProcess env processID).trace = [] ∨
      signalsOf (waitOnProcess env processID).trace = [Signal.SIGKILL] := by
  refine ⟨by decide, by decide, by decide, ?_⟩
  intro env processID
  have hback : ∀ p : Process,
      signalsOf (backoffForProcess p (fun i => env.isRunning (i + 1))).trace = [] :=
    fun p => signalsOf_backoffLoop p _ loops 0 sleepTime
  cases hp : env.newProcess (toInt32 processID) with
  | error e0 => simp [waitOnProcess, hp, signalsOf]
  | ok p =>
    cases hq : env.isRunning 0 with
    | error e1 => simp [waitOnProcess, hp, hq, signalsOf]
    | ok b =>
      cases b with
      | false => simp [waitOnProcess, hp, hq, signalsOf]
      | true =>
        cases hk : env.kill with
        | none => simp [waitOnProcess, hp, hq, hk, signalsOf, hback]
        | some e2 =>
          by_cases hE : errorsIs e2 ESRCH = true <;>
            simp [waitOnProcess, hp, hq, hk, hE, signalsOf]

/-! ## commonSSH -/

/-- C9, as the code has it: for every username, identity path, port and input arguments,
`CommonSSHSilent` runs `ssh` with the argument list of the specification (the fixed
options, then the input arguments in their order when there are any, then exactly `-t`
when there are none) and returns what the run returns.  `CommonSSH` first sets up the I/O
passthrough of that same command, with `interactive` true exactly when there are no input
arguments; when the setup succeeds it runs the command as `CommonSSHSilent` does, and when
the setup fails it returns the setup's error and does not run `ssh`.  The setup, and what
follows from its failure, is the only difference between the two. -/
theorem commonSSH_command (env : SSHEnv) (username identityPath name : String)
    (sshPort : Int) (inputArgs : List String) :
    ∃ printed : List SSHEvent, (∀ ev, ev ∈ printed → ∃ t, ev = SSHEvent.printf t) ∧
      CommonSSHSilent env username identityPath name sshPort inputArgs
        = { err := env.run ⟨"ssh", specArgs username identityPath sshPort inputArgs⟩,
            trace := printed ++
              [SSHEvent.run ⟨"ssh", specArgs username identityPath sshPort inputArgs⟩] } ∧
      (env.setupIOPassthrough ⟨"ssh", specArgs username identityPath sshPort inputArgs⟩
          (decide (inputArgs = [])) = none →
        CommonSSH env username identityPath name sshPort inputArgs
          = { err := env.run ⟨"ssh", specArgs username identityPath sshPort inputArgs⟩,
              trace := printed ++
                [SSHEvent.setupIOPassthrough
                    ⟨"ssh", specArgs username identityPath sshPort inputArgs⟩
                    (decide (inputArgs = [])),
                  SSHEvent.run ⟨"ssh", specArgs username identityPath sshPort inputArgs⟩] }) ∧
      (∀ e, env.setupIOPassthrough ⟨"ssh", specArgs username identityPath sshPort inputArgs⟩
          (decide (inputArgs = [])) = some e →
        CommonSSH env username identityPath name sshPort inputArgs
          = { err := some e,
              trace := printed ++
                [SSHEvent.setupIOPassthrough
                    ⟨"ssh", specArgs username identityPath sshPort inputArgs⟩
                    (decide (inputArgs = []))] }) := by
  cases inputArgs with
  | nil =>
    refine ⟨[SSHEvent.printf ("Connecting to vm " ++ name
      ++ ". To close connection, use \x60~.\x60 or \x60exit\x60\n")], ?_, ?_, ?_, ?_⟩
    · intro ev hev
      exact ⟨_, List.mem_singleton.1 hev⟩
    · simp [CommonSSHSilent, commonSSH, specArgs]
    · intro h
      simp [specArgs] at h
      simp [CommonSSH, commonSSH, specArgs, h]
    · intro e h
      simp [specArgs] at h
      simp [CommonSSH, commonSSH, specArgs, h]
  | cons x xs =>
    refine ⟨[], ?_, ?_, ?_, ?_⟩
    · intro ev hev
      exact absurd hev (List.not_mem_nil ev)
    · simp [CommonSSHSilent, commonSSH, specArgs]
    · intro h
      simp [specArgs] at h
      simp [CommonSSH, commonSSH, specArgs, h]
    · intro e h
      simp [specArgs] at h
      simp [CommonSSH, commonSSH, specArgs, h]

/-- Instance of C9 as amended: a batch call on a platform where the setup succeeds. -/
theorem commonSSH_command_witness :
    CommonSSH sshOkEnv "core" "/keys/id" "vm" 2222 ["uname", "-a"]
      = { err := none,
          trace := [SSHEvent.setupIOPassthrough
              ⟨"ssh", ["-i", "/keys/id", "-p", "2222", "core@localhost", "-o",
                "IdentitiesOnly=yes", "-o", "StrictHostKeyChecking=no", "-o",
                "LogLevel=ERROR", "-o", "SetEnv=LC_ALL=", "uname", "-a"]⟩ false,
            SSHEvent.run
              ⟨"ssh", ["-i", "/keys/id", "-p", "2222", "core@localhost", "-o",
                "IdentitiesOnly=yes", "-o", "StrictHostKeyChecking=no", "-o",
                "LogLevel=ERROR", "-o", "SetEnv=LC_ALL=", "uname", "-a"]⟩] } := by
  obtain ⟨printed, _, hs, hok, _⟩ :=
    commonSSH_command sshOkEnv "core" "/keys/id" "vm" 2222 ["uname", "-a"]
  have hlen := congrArg (fun o => o.trace.length) hs
  have hnil : printed = [] := by
    simp [CommonSSHSilent, commonSSH] at hlen
    exact hlen
  rw [hok rfl, hnil]
  decide

/-- Counterexample to C9 as stated: where the I/O passthrough cannot be set up, `CommonSSH`
returns the setup's error and runs no command at all, while `CommonSSHSilent` on the same
arguments runs `ssh`. -/
theorem CommonSSH_setup_failure_runs_nothing :
    runsOf (CommonSSH sshNoPipeEnv "core" "/keys/id" "vm" 2222 ["uname", "-a"]).trace = [] ∧
    (CommonSSH sshNoPipeEnv "core" "/keys/id" "vm" 2222 ["uname", "-a"]).err
      = some (GoError.text "too many open files") ∧
    runsOf (CommonSSHSilent sshNoPipeEnv "core" "/keys/id" "vm" 2222 ["uname", "-a"]).trace
      = [⟨"ssh", ["-i", "/keys/id", "-p", "2222", "core@localhost", "-o",
          "IdentitiesOnly=yes", "-o", "StrictHostKeyChecking=no", "-o",
          "LogLevel=ERROR", "-o", "SetEnv=LC_ALL=", "uname", "-a"]⟩] := by
  decide

/-! ## GetDisk -/

/-- The test `strings.HasPrefix` holds exactly of the texts that are `start` followed by
some text. -/
theorem HasPrefix_iff (s start : String) :
    HasPrefix s start = true ↔ ∃ rest : String, s = start ++ rest := by
  unfold HasPrefix
  rw [List.isPrefixOf_iff_prefix]
  constructor
  · rintro ⟨t, ht⟩
    refine ⟨⟨t⟩, ?_⟩
    apply String.ext
    rw [String.data_append]
    exact ht.symm
  · rintro ⟨rest, rfl⟩
    exact ⟨rest.toList, by simp⟩

theorem not_HasPrefix_iff (s start : String) :
    HasPrefix s start = false ↔ ∀ rest : String, s ≠ start ++ rest := by
  rw [← Bool.not_eq_true, HasPrefix_iff]
  exact not_exists

theorem constructAndGet_dispatchesTo (env : DiskEnv) (call : DiskCall) :
    dispatchesTo env (constructAndGet env call) call := by
  unfold dispatchesTo constructAndGet
  cases h : env.construct call <;> simp

theorem strategiesOf_constructAndGet (env : DiskEnv) (call : DiskCall) :
    strategiesOf (constructAndGet env call) = [call.strategy] := by
  unfold strategiesOf constructAndGet
  cases h : env.construct call <;> simp [constructsOf]

/-- C10, as the code has it: which strategy `GetDisk` takes depends on `userInputPath`
alone.  It pulls by name (`NewOCIArtifactPull`) exactly when the path is empty; it fetches
by URL (`NewDiskFromURL`) exactly when the path is the four characters `http` followed by
anything, whatever follows; it uses the local path (`NewStdDiskPull`) otherwise.  It makes
one constructor call, and when that call fails it returns the error without calling `Get`,
and otherwise it returns the result of `Get` on the disk built.  The one exception is a
path starting with `http` together with a nil `dirs`: reading `dirs.DataDir` panics before
any constructor is called. -/
theorem GetDisk_dispatch (env : DiskEnv) (userInputPath : String)
    (dirs : Option MachineDirs) (imagePath : Option VMFile) (vmType : Nat) (name : String) :
    (userInputPath = "" →
      dispatchesTo env (GetDisk env userInputPath dirs imagePath vmType name)
        (DiskCall.NewOCIArtifactPull dirs name vmType imagePath)) ∧
    (∀ (rest : String) (d : MachineDirs), userInputPath = "http" ++ rest → dirs = some d →
      dispatchesTo env (GetDisk env userInputPath dirs imagePath vmType name)
        (DiskCall.NewDiskFromURL userInputPath imagePath d.DataDir)) ∧
    (∀ rest : String, userInputPath = "http" ++ rest → dirs = none →
      GetDisk env userInputPath dirs imagePath vmType name
        = { result := DiskResult.panicked, trace := [] }) ∧
    (userInputPath ≠ "" → (∀ rest : String, userInputPath ≠ "http" ++ rest) →
      dispatchesTo env (GetDisk env userInputPath dirs imagePath vmType name)
        (DiskCall.NewStdDiskPull userInputPath imagePath)) ∧
    (strategiesOf (GetDisk env userInputPath dirs imagePath vmType name)
        = [Strategy.pullByName] ↔ userInputPath = "") ∧
    (strategiesOf (GetDisk env userInputPath dirs imagePath vmType name)
        = [Strategy.fetchByURL]
      ↔ (∃ rest : String, userInputPath = "http" ++ rest) ∧ dirs ≠ none) ∧
    (strategiesOf (GetDisk env userInputPath dirs imagePath vmType name)
        = [Strategy.useLocalPath]
      ↔ userInputPath ≠ "" ∧ ∀ rest : String, userInputPath ≠ "http" ++ rest) ∧
    (strategiesOf (GetDisk env userInputPath dirs imagePath vmType name)).length ≤ 1 := by
  have hempty : ∀ rest : String, ("" : String) ≠ "http" ++ rest := by
    intro rest h
    have h2 := (HasPrefix_iff "" "http").2 ⟨rest, h⟩
    exact absurd h2 (by decide)
  by_cases h1 : userInputPath = ""
  · subst h1
    have hG : GetDisk env "" dirs imagePath vmType name
        = constructAndGet env (DiskCall.NewOCIArtifactPull dirs name vmType imagePath) := by
      simp [GetDisk]
    rw [hG, strategiesOf_constructAndGet]
    refine ⟨fun _ => constructAndGet_dispatchesTo _ _, ?_, ?_, ?_, ?_, ?_, ?_, ?_⟩
    · intro rest d h; exact absurd h (hempty rest)
    · intro rest h; exact absurd h (hempty rest)
    · intro h; exact absurd rfl h
    · simp [DiskCall.strategy]
    · simp only [DiskCall.strategy, List.cons.injEq, reduceCtorEq, and_true, false_iff]
      rintro ⟨⟨rest, h⟩, _⟩
      exact hempty rest h
    · simp [DiskCall.strategy]
    · simp
  · cases h2 : HasPrefix userInputPath "http" with
    | true =>
      have hex : ∃ rest : String, userInputPath = "http" ++ rest :=
        (HasPrefix_iff _ _).1 h2
      cases dirs with
      | none =>
        have hG : GetDisk env userInputPath none imagePath vmType name
            = { result := DiskResult.panicked, trace := [] } := by
          simp [GetDisk, h1, h2]
        rw [hG]
        refine ⟨fun h => absurd h h1, ?_, fun _ _ _ => rfl, ?_, ?_, ?_, ?_, ?_⟩
        · intro rest d _ hd; exact absurd hd (by simp)
        · intro _ hno
          obtain ⟨rest, hrest⟩ := hex
          exact absurd hrest (hno rest)
        · simp [strategiesOf, constructsOf, h1]
        · simp [strategiesOf, constructsOf]
        · simp only [strategiesOf, constructsOf, List.map_nil, reduceCtorEq, false_iff]
          rintro ⟨_, hno⟩
          obtain ⟨rest, hrest⟩ := hex
          exact hno rest hrest
        · simp [strategiesOf, constructsOf]
      | some d =>
        have hG : GetDisk env userInputPath (some d) imagePath vmType name
            = constructAndGet env
                (DiskCall.NewDiskFromURL userInputPath imagePath d.DataDir) := by
          simp [GetDisk, h1, h2]
        rw [hG, strategiesOf_constructAndGet]
        refine ⟨fun h => absurd h h1, ?_, ?_, ?_, ?_, ?_, ?_, ?_⟩
        · intro rest d2 _ hd
          obtain rfl : d = d2 := Option.some.inj hd
          exact constructAndGet_dispatchesTo _ _
        · intro rest _ hd; exact absurd hd (by simp)
        · intro _ hno
          obtain ⟨rest, hrest⟩ := hex
          exact absurd hrest (hno rest)
        · simp [DiskCall.strategy, h1]
        · simp [DiskCall.strategy, hex]
        · simp only [DiskCall.strategy, List.cons.injEq, reduceCtorEq, and_true, false_iff]
          rintro ⟨_, hno⟩
          obtain ⟨rest, hrest⟩ := hex
          exact hno rest hrest
        · simp
    | false =>
      have hno : ∀ rest : String, userInputPath ≠ "http" ++ rest :=
        (not_HasPrefix_iff _ _).1 h2
      have hG : GetDisk env userInputPath dirs imagePath vmType name
          = constructAndGet env (DiskCall.NewStdDiskPull userInputPath imagePath) := by
        simp [GetDisk, h1, h2]
      rw [hG, strategiesOf_constructAndGet]
      refine ⟨fun h => absurd h h1, ?_, ?_, fun _ _ => constructAndGet_dispatchesTo _ _,
        ?_, ?_, ?_, ?_⟩
      · intro rest d h _; exact absurd h (hno rest)
      · intro rest h _; exact absurd h (hno rest)
      · simp [DiskCall.strategy, h1]
      · simp only [DiskCall.strategy, List.cons.injEq, reduceCtorEq, and_true, false_iff]
        rintro ⟨⟨rest, h⟩, _⟩
        exact hno rest h
      · simp only [DiskCall.strategy, true_iff]
        exact ⟨h1, hno⟩
      · simp

/-- Instance of C10 as amended: a URL, on a platform whose constructors build disks that
fail to download. -/
theorem GetDisk_dispatch_witness :
    GetDisk diskGetFailsEnv "https://example.org/d.qcow2" (some sampleDirs)
        (some ⟨"/img"⟩) 0 "vm"
      = { result := DiskResult.returned (some (GoError.text "download failed")),
          trace := [DiskEvent.construct
              (DiskCall.NewDiskFromURL "https://example.org/d.qcow2" (some ⟨"/img"⟩)
                (some ⟨"/data"⟩)),
            DiskEvent.get
              (DiskCall.NewDiskFromURL "https://example.org/d.qcow2" (some ⟨"/img"⟩)
                (some ⟨"/data"⟩))] } :=
  ((GetDisk_dispatch diskGetFailsEnv "https://example.org/d.qcow2" (some sampleDirs)
      (some ⟨"/img"⟩) 0 "vm").2.1 "s://example.org/d.qcow2" sampleDirs (by decide) rfl).2 rfl

/-- Counterexample to C10 as stated: `httpd/d.qcow2`, the path of a local file, is not
URL-shaped and is fetched by URL all the same; `HTTP://EXAMPLE.ORG/d.qcow2` and
`ftp://example.org/d.qcow2` are URL-shaped and are taken as local paths; and with a nil
`dirs` a URL makes `GetDisk` panic, with no constructor called and nothing returned. -/
theorem GetDisk_http_start_is_not_url_shape :
    urlShaped "httpd/d.qcow2" = false ∧
    strategiesOf (GetDisk diskGetFailsEnv "httpd/d.qcow2" (some sampleDirs)
        (some ⟨"/img"⟩) 0 "vm") = [Strategy.fetchByURL] ∧
    urlShaped "HTTP://EXAMPLE.ORG/d.qcow2" = true ∧
    strategiesOf (GetDisk diskGetFailsEnv "HTTP://EXAMPLE.ORG/d.qcow2" (some sampleDirs)
        (some ⟨"/img"⟩) 0 "vm") = [Strategy.useLocalPath] ∧
    urlShaped "ftp://example.org/d.qcow2" = true ∧
    strategiesOf (GetDisk diskGetFailsEnv "ftp://example.org/d.qcow2" (some sampleDirs)
        (some ⟨"/img"⟩) 0 "vm") = [Strategy.useLocalPath] ∧
    GetDisk diskGetFailsEnv "https://example.org/d.qcow2" none (some ⟨"/img"⟩) 0 "vm"
      = { result := DiskResult.panicked, trace := [] } := by
  decide

/-- More instances of the dispatch: an empty path, a file path, and a URL on a platform
whose constructors fail. -/
theorem GetDisk_examples :
    GetDisk diskGetFailsEnv "" (some sampleDirs) (some ⟨"/img"⟩) 0 "vm"
      = { result := DiskResult.returned (some (GoError.text "download failed")),
          trace := [DiskEvent.construct
              (DiskCall.NewOCIArtifactPull (some sampleDirs) "vm" 0 (some ⟨"/img"⟩)),
            DiskEvent.get
              (DiskCall.NewOCIArtifactPull (some sampleDirs) "vm" 0 (some ⟨"/img"⟩))] } ∧
    GetDisk diskGetFailsEnv "/home/u/d.qcow2" (some sampleDirs) (some ⟨"/img"⟩) 0 "vm"
      = { result := DiskResult.returned (some (GoError.text "download failed")),
          trace := [DiskEvent.construct
              (DiskCall.NewStdDiskPull "/home/u/d.qcow2" (some ⟨"/img"⟩)),
            DiskEvent.get (DiskCall.NewStdDiskPull "/home/u/d.qcow2" (some ⟨"/img"⟩))] } ∧
    GetDisk diskNoneEnv "https://example.org/d.qcow2" (some sampleDirs) (some ⟨"/img"⟩) 0 "vm"
      = { result := DiskResult.returned (some (GoError.text "invalid image")),
          trace := [DiskEvent.construct
              (DiskCall.NewDiskFromURL "https://example.org/d.qcow2" (some ⟨"/img"⟩)
                (some ⟨"/data"⟩))] } ∧
    urlShaped "https://example.org/d.qcow2" = true ∧
    urlShaped "/home/u/d.qcow2" = false ∧
    urlShaped "http" = false ∧
    urlShaped "" = false := by
  decide

end Podman
